import Mathlib

/-!
Verification of the GCP-Glossary-Terms-Updater repository.

Strings are modelled as `List Char` (written `Str`); Python dictionaries as
association lists; JSON values as an inductive `Json` type; the HTTP transport
as an oracle value (`HttpOutcome`) describing what the single request of each
operation produced.
-/

abbrev Str := List Char

/-! ## Naming / addressing convention (section 4.1 of the design) -/

def iwdDash : Str := ['i', 'w', 'd', '-']

def iwdUnder : Str := ['i', 'w', 'd', '_']

def glossarySuffix : Str := "_glossary.csv".toList

/-- Replace every occurrence of character `a` by `b`. -/
def replaceChar (a b : Char) (s : Str) : Str :=
  s.map (fun c => if c = a then b else c)

/-- `s` begins with `pre`. -/
def strStartsWith (pre s : Str) : Bool :=
  decide (s.take pre.length = pre)

/-- `s` ends with `suf`. -/
def strEndsWith (suf s : Str) : Bool :=
  decide (s.drop (s.length - suf.length) = suf)

/-- Modelled from the spec: `to_object_name` of the transfer facade
(`GlossaryManager`, which is not present under `src/`; only its callers are).
If the pair starts with `"iwd-"`, strip it, replace the remaining `-` with
`_`, prefix with `"iwd_"` and suffix `"_glossary.csv"`; otherwise replace `-`
with `_` and suffix `"_glossary.csv"`. -/
def to_object_name (pair : Str) : Str :=
  if strStartsWith iwdDash pair then
    iwdUnder ++ replaceChar '-' '_' (pair.drop 4) ++ glossarySuffix
  else
    replaceChar '-' '_' pair ++ glossarySuffix

/-- Modelled from the spec: `from_object_name` of the transfer facade
(`GlossaryManager`, which is not present under `src/`). Fails for a name not
ending in the glossary suffix; otherwise strips the suffix and an optional
`iwd_` prefix, replaces `_` with `-`, and re-adds the `iwd-` tag when the
prefix was present. -/
def from_object_name (name : Str) : Option Str :=
  if strEndsWith glossarySuffix name then
    let base := name.take (name.length - glossarySuffix.length)
    if strStartsWith iwdUnder base then
      some (iwdDash ++ replaceChar '_' '-' (base.drop 4))
    else
      some (replaceChar '_' '-' base)
  else none

/-- A language code: nonempty, and free of the separator `-` and of `_`. -/
def validCode (c : Str) : Prop :=
  c ≠ [] ∧ ∀ ch ∈ c, ch ≠ '-' ∧ ch ≠ '_'

/-- Modelled from the spec (section 3): a LanguagePair serialized as
`"src-tgt"`, optionally carrying the `"iwd-"` prefix. -/
def isLanguagePairString (p : Str) : Prop :=
  ∃ src tgt, validCode src ∧ validCode tgt ∧
    (p = src ++ ['-'] ++ tgt ∨ p = iwdDash ++ (src ++ ['-'] ++ tgt))

/-! ## JSON values and the HTTP transport -/

/-- A parsed JSON value; Python dicts become association lists. -/
inductive Json where
  | null : Json
  | bool (b : Bool) : Json
  | num (n : Int) : Json
  | str (s : Str) : Json
  | arr (elems : List Json) : Json
  | obj (fields : List (Str × Json)) : Json

/-- Association-list lookup, mirroring Python dict key access. -/
def lookupField (fields : List (Str × Json)) (k : Str) : Option Json :=
  match fields with
  | [] => none
  | (key, v) :: rest => if key = k then some v else lookupField rest k

/-- Python `len(x)`: defined for str, list and dict values; `none` models the
`TypeError` raised on other values. -/
def pyLen (j : Json) : Option Nat :=
  match j with
  | .str s => some s.length
  | .arr xs => some xs.length
  | .obj fs => some fs.length
  | _ => none

/-- What the single HTTP round trip of an operation produced: a response
(status code plus parsed JSON body) or a raised exception. The `exn` case
covers transport errors and a token-refresh failure inside `_get_headers`,
both of which are raised from inside each operation's `try` block. -/
inductive HttpOutcome where
  | response (status : Nat) (body : Json) : HttpOutcome
  | exn : HttpOutcome

inductive Method where
  | GET : Method
  | POST : Method
  | PATCH : Method
  | DELETE : Method

/-- An HTTP request as assembled by the facade: method, URL, query
parameters, and optional JSON body. -/
structure HttpRequest where
  method : Method
  url : Str
  params : List (Str × Int)
  body : Option Json

/-! ## GlossaryEntryManager (src/glossary_manager.py) -/

/-- State set up by `GlossaryEntryManager.__init__` (credentials handling is
external and out of the model). -/
structure GlossaryEntryManager where
  project_id : Str
  location : Str
  base_url : Str
  parent : Str

/-- `__init__`: fixes the base URL and the parent path. -/
def mkManager (project_id location : Str) : GlossaryEntryManager :=
  { project_id := project_id
    location := location
    base_url := "https://translation.googleapis.com/v3".toList
    parent := "projects/".toList ++ project_id ++ "/locations/".toList ++ location }

/-- URL of the entry collection of one glossary. -/
def collection_url (m : GlossaryEntryManager) (glossary_id : Str) : Str :=
  m.base_url ++ "/".toList ++ m.parent ++ "/glossaries/".toList ++ glossary_id
    ++ "/glossaryEntries".toList

/-- URL of a single entry. -/
def entry_url (m : GlossaryEntryManager) (glossary_id entry_id : Str) : Str :=
  collection_url m glossary_id ++ "/".toList ++ entry_id

/-- The one request issued by `list_glossary_entries`. -/
def list_request (m : GlossaryEntryManager) (glossary_id : Str) (page_size : Int) :
    HttpRequest :=
  { method := .GET
    url := collection_url m glossary_id
    params := [("pageSize".toList, page_size)]
    body := none }

/-- The one request issued by `get_glossary_entry`. -/
def get_request (m : GlossaryEntryManager) (glossary_id entry_id : Str) : HttpRequest :=
  { method := .GET
    url := entry_url m glossary_id entry_id
    params := []
    body := none }

/-- Request body shared by create and update: `{"termsSet": {"terms": terms}}`
plus `"description"` when the description is non-empty (Python truthiness of
a string). -/
def entry_request_body (terms : List Json) (description : Str) : Json :=
  let request_body : List (Str × Json) :=
    [("termsSet".toList, .obj [("terms".toList, .arr terms)])]
  let request_body :=
    if description ≠ [] then request_body ++ [("description".toList, .str description)]
    else request_body
  .obj request_body

/-- The one request issued by `create_glossary_entry`. -/
def create_request (m : GlossaryEntryManager) (glossary_id : Str)
    (terms : List Json) (description : Str) : HttpRequest :=
  { method := .POST
    url := collection_url m glossary_id
    params := []
    body := some (entry_request_body terms description) }

/-- The one request issued by `update_glossary_entry`. -/
def update_request (m : GlossaryEntryManager) (glossary_id entry_id : Str)
    (terms : List Json) (description : Str) : HttpRequest :=
  { method := .PATCH
    url := entry_url m glossary_id entry_id
    params := []
    body := some (entry_request_body terms description) }

/-- The one request issued by `delete_glossary_entry`. -/
def delete_request (m : GlossaryEntryManager) (glossary_id entry_id : Str) : HttpRequest :=
  { method := .DELETE
    url := entry_url m glossary_id entry_id
    params := []
    body := none }

/-- The requests issued by one call to `list_glossary_entries`: the code
performs exactly one `requests.get`, with no pagination-cursor loop. -/
def list_requests_issued (m : GlossaryEntryManager) (glossary_id : Str)
    (page_size : Int) : List HttpRequest :=
  [list_request m glossary_id page_size]

/-- Body of `list_glossary_entries`' `try` block: `some r` means it returned
`r`, `none` means an exception was raised (and is caught by the `except`).
On 200 it runs `data.get("glossaryEntries", [])` (raising `AttributeError`
when the body is not a dict) and `len(entries)` for the log line (raising
`TypeError` when the value has no length); 404, 403 and any other status
return the empty list. -/
def list_try (o : HttpOutcome) : Option Json :=
  match o with
  | .exn => none
  | .response status body =>
    if status = 200 then
      match body with
      | .obj fields =>
        let entries := (lookupField fields "glossaryEntries".toList).getD (.arr [])
        match pyLen entries with
        | some _ => some entries
        | none => none
      | _ => none
    else if status = 404 then some (.arr [])
    else if status = 403 then some (.arr [])
    else some (.arr [])

/-- `list_glossary_entries`: the `except` branch returns `[]`. -/
def list_glossary_entries (o : HttpOutcome) : Json :=
  (list_try o).getD (.arr [])

/-- Body of `get_glossary_entry`'s `try` block. -/
def get_try (o : HttpOutcome) : Option (Option Json) :=
  match o with
  | .exn => none
  | .response status body =>
    if status = 200 then some (some body)
    else if status = 404 then some none
    else some none

/-- `get_glossary_entry`: the `except` branch returns `None`. -/
def get_glossary_entry (o : HttpOutcome) : Option Json :=
  (get_try o).getD none

/-- `entry["name"].split("/")[-1]`: `some` when `entry` is a dict whose
`"name"` key holds a string (otherwise Python raises `KeyError`,
`TypeError` or `AttributeError`). -/
def extractName (body : Json) : Option Str :=
  match body with
  | .obj fields =>
    match lookupField fields "name".toList with
    | some (.str s) => some s
    | _ => none
  | _ => none

/-- Final segment of a `/`-separated string, as `s.split("/")[-1]`. -/
def lastSegment (s : Str) : Str :=
  (s.splitOn '/').getLastD []

/-- Body of `create_glossary_entry`'s `try` block. -/
def create_try (o : HttpOutcome) : Option (Option Str) :=
  match o with
  | .exn => none
  | .response status body =>
    if status = 200 then
      match extractName body with
      | some s => some (some (lastSegment s))
      | none => none
    else some none

/-- `create_glossary_entry`: the `except` branch returns `None`. -/
def create_glossary_entry (o : HttpOutcome) : Option Str :=
  (create_try o).getD none

/-- Body of `update_glossary_entry`'s `try` block. -/
def update_try (o : HttpOutcome) : Option Bool :=
  match o with
  | .exn => none
  | .response status _ => some (status = 200)

/-- `update_glossary_entry`: the `except` branch returns `False`. -/
def update_glossary_entry (o : HttpOutcome) : Bool :=
  (update_try o).getD false

/-- Body of `delete_glossary_entry`'s `try` block. -/
def delete_try (o : HttpOutcome) : Option Bool :=
  match o with
  | .exn => none
  | .response status _ => some (status = 200)

/-- `delete_glossary_entry`: the `except` branch returns `False`. -/
def delete_glossary_entry (o : HttpOutcome) : Bool :=
  (delete_try o).getD false

/-! ## The entry-tool CLI (`main` in src/glossary_manager.py) -/

inductive CliAction where
  | list : CliAction
  | get : CliAction
  | create : CliAction
  | update : CliAction
  | delete : CliAction
deriving DecidableEq

/-- The parsed arguments relevant to the validation logic; `none` models an
omitted optional flag. -/
structure CliArgs where
  action : CliAction
  entry_id : Option Str
  terms : Option Str

/-- Python truthiness of an optional string: `None` and `""` are falsy. -/
def falsyOpt (s : Option Str) : Bool :=
  match s with
  | none => true
  | some v => decide (v = [])

/-- How a run of `main` ends for the purpose of the validation claims:
either `sys.exit`/`parser.error` with an exit code before any API call,
or the dispatch of the given action's API call. -/
inductive MainResult where
  | exitCode (code : Nat) : MainResult
  | apiCall (a : CliAction) : MainResult
deriving DecidableEq

/-- The control flow of `main` up to the first API call.
`parser.error` exits with status 2 (argparse); the auth-file check,
initialization failure, and an invalid `--terms` JSON exit with status 1.
`authExists`, `initOk` and `termsParse` stand for the filesystem check, the
manager constructor, and `json.loads` — all external to the model. -/
def main_model (args : CliArgs) (authExists initOk : Bool)
    (termsParse : Str → Option Json) : MainResult :=
  if (args.action = .get ∨ args.action = .update ∨ args.action = .delete)
      ∧ falsyOpt args.entry_id then
    .exitCode 2
  else if (args.action = .create ∨ args.action = .update) ∧ falsyOpt args.terms then
    .exitCode 2
  else if ¬authExists then .exitCode 1
  else if ¬initOk then .exitCode 1
  else
    match args.action with
    | .list => .apiCall .list
    | .get => .apiCall .get
    | .create =>
      match termsParse (args.terms.getD []) with
      | none => .exitCode 1
      | some _ => .apiCall .create
    | .update =>
      match termsParse (args.terms.getD []) with
      | none => .exitCode 1
      | some _ => .apiCall .update
    | .delete => .apiCall .delete

/-! ## Config (src/config.py) -/

/-- The `'dev'` entry of `Config.ENVIRONMENTS`, parametrized by the process
environment (`os.getenv`). -/
def dev_environment (getenv : Str → Option Str) : List (Str × Str) :=
  [("credentials_file".toList,
      (getenv "DEV_CREDENTIALS_FILE".toList).getD
        "auth_files/dom-dx-translation-dev-da60bb26e907.json".toList),
   ("project_id".toList,
      (getenv "DEV_PROJECT_ID".toList).getD "dom-dx-translation-dev".toList),
   ("bucket_name".toList,
      (getenv "DEV_BUCKET_NAME".toList).getD "dom-dx-translation-dev-bucket".toList)]

/-- The `'prod'` entry of `Config.ENVIRONMENTS`. -/
def prod_environment (getenv : Str → Option Str) : List (Str × Str) :=
  [("credentials_file".toList,
      (getenv "PROD_CREDENTIALS_FILE".toList).getD
        "auth_files/dom-dx-translation-prod-8ae379a2799e.json".toList),
   ("project_id".toList,
      (getenv "PROD_PROJECT_ID".toList).getD "dom-dx-translation-prod".toList),
   ("bucket_name".toList,
      (getenv "PROD_BUCKET_NAME".toList).getD "dom-dx-translation-prod-bucket".toList)]

/-- `Config.ENVIRONMENTS`: the two named environments. -/
def ENVIRONMENTS (getenv : Str → Option Str) : List (Str × List (Str × Str)) :=
  [("dev".toList, dev_environment getenv), ("prod".toList, prod_environment getenv)]

/-- Association-list lookup for string-valued dicts. -/
def lookupStr (fields : List (Str × Str)) (k : Str) : Option Str :=
  match fields with
  | [] => none
  | (key, v) :: rest => if key = k then some v else lookupStr rest k

/-- Association-list lookup on `ENVIRONMENTS`. -/
def lookupEnv (envs : List (Str × List (Str × Str))) (k : Str) :
    Option (List (Str × Str)) :=
  match envs with
  | [] => none
  | (key, v) :: rest => if key = k then some v else lookupEnv rest k

/-- `os.path.join(cwd, p)`: `p` if absolute, otherwise `cwd + "/" + p`
(the detail of a trailing separator in `cwd` is immaterial here). -/
def joinPath (cwd p : Str) : Str :=
  if p.head? = some '/' then p else cwd ++ ['/'] ++ p

/-- `Config.get_environment_config`: `.error ()` models the raised
`ValueError` for an unknown environment; otherwise a copy of the
environment's dict with a `credentials_path` key appended. -/
def get_environment_config (getenv : Str → Option Str) (cwd : Str) (environment : Str) :
    Except Unit (List (Str × Str)) :=
  match lookupEnv (ENVIRONMENTS getenv) environment with
  | none => .error ()
  | some config =>
    .ok (config ++
      [("credentials_path".toList,
        joinPath cwd ((lookupStr config "credentials_file".toList).getD []))])

/-- `Config.validate_environment`: `False` for an unknown environment, else
whether the credentials file exists (`pathExists` models `os.path.exists`). -/
def validate_environment (getenv : Str → Option Str) (cwd : Str)
    (pathExists : Str → Bool) (environment : Str) : Bool :=
  match lookupEnv (ENVIRONMENTS getenv) environment with
  | none => false
  | some _ =>
    match get_environment_config getenv cwd environment with
    | .ok config => pathExists ((lookupStr config "credentials_path".toList).getD [])
    | .error _ => false

/-- `Config.get_all_language_pairs`: the configured pairs followed by their
`iwd-` variants, built by extend-then-append as in the source. -/
def get_all_language_pairs (supported_language_pairs : List Str) : List Str :=
  let all_pairs : List Str := [] ++ supported_language_pairs
  supported_language_pairs.foldl (fun acc pair => acc ++ [iwdDash ++ pair]) all_pairs

/-- Key lookup on a JSON object (`none` on a non-object). -/
def jsonGetKey (j : Json) (k : Str) : Option Json :=
  match j with
  | .obj fields => lookupField fields k
  | _ => none

/-- The keys of a JSON object, in order. -/
def jsonKeys (j : Json) : List Str :=
  match j with
  | .obj fields => fields.map Prod.fst
  | _ => []

/-! ## Lemmas for the naming convention -/

lemma strStartsWith_iff (pre s : Str) :
    strStartsWith pre s = true ↔ s.take pre.length = pre := by
  simp [strStartsWith]

lemma strEndsWith_append (suf xs : Str) :
    strEndsWith suf (xs ++ suf) = true := by
  simp [strEndsWith, List.length_append, List.drop_left]

lemma replaceChar_replaceChar (s : Str) (h : '_' ∉ s) :
    replaceChar '_' '-' (replaceChar '-' '_' s) = s := by
  induction s with
  | nil => rfl
  | cons c cs ih =>
    simp only [List.mem_cons, not_or] at h
    simp only [replaceChar, List.map_cons, List.map_map] at *
    rw [List.cons.injEq]
    constructor
    · by_cases hc : c = '-'
      · simp [hc]
      · simp [hc, Ne.symm h.1]
    · exact ih h.2

lemma no_underscore_of_pair (p : Str) (h : isLanguagePairString p) : '_' ∉ p := by
  obtain ⟨src, tgt, hs, ht, hp | hp⟩ := h <;> subst hp <;> intro hm
  · rcases List.mem_append.mp hm with hm | hm
    · rcases List.mem_append.mp hm with hm | hm
      · exact (hs.2 '_' hm).2 rfl
      · exact absurd hm (by decide)
    · exact (ht.2 '_' hm).2 rfl
  · rcases List.mem_append.mp hm with hm | hm
    · exact absurd hm (by decide)
    · rcases List.mem_append.mp hm with hm | hm
      · rcases List.mem_append.mp hm with hm | hm
        · exact (hs.2 '_' hm).2 rfl
        · exact absurd hm (by decide)
      · exact (ht.2 '_' hm).2 rfl

lemma resolve_if_ne (x y : Char) (hy : y ≠ '_')
    (h : (if x = '-' then '_' else x) = y) : x = y := by
  by_cases hx : x = '-'
  · rw [if_pos hx] at h
    exact absurd h.symm hy
  · rwa [if_neg hx] at h

lemma resolve_if_under (x : Char) (hx : x ≠ '_')
    (h : (if x = '-' then '_' else x) = '_') : x = '-' := by
  by_cases hc : x = '-'
  · exact hc
  · rw [if_neg hc] at h
    exact absurd h hx

lemma eq_iwdDash_of_map (q : Str) (hq : '_' ∉ q)
    (hmap : replaceChar '-' '_' q = iwdUnder) : q = iwdDash := by
  have hlen : q.length = 4 := by
    have := congrArg List.length hmap
    simpa [replaceChar, iwdUnder] using this
  rcases q with _ | ⟨a, q⟩
  · simp at hlen
  rcases q with _ | ⟨b, q⟩
  · simp at hlen
  rcases q with _ | ⟨c, q⟩
  · simp at hlen
  rcases q with _ | ⟨d, q⟩
  · simp at hlen
  rcases q with _ | ⟨e, q⟩
  · simp only [List.mem_cons, not_or] at hq
    simp only [replaceChar, List.map_cons, List.map_nil, iwdUnder,
      List.cons.injEq, and_true] at hmap
    obtain ⟨h1, h2, h3, h4⟩ := hmap
    rw [iwdDash, resolve_if_ne a 'i' (by decide) h1,
      resolve_if_ne b 'w' (by decide) h2, resolve_if_ne c 'd' (by decide) h3,
      resolve_if_under d (Ne.symm hq.2.2.2.1) h4]
  · simp at hlen

/-- The object-name round trip holds for every string free of `_`. -/
lemma roundtrip_of_no_underscore (p : Str) (h : '_' ∉ p) :
    from_object_name (to_object_name p) = some p := by
  by_cases hp : strStartsWith iwdDash p = true
  · -- iwd- variant
    have htake : p.take 4 = iwdDash := by
      have := (strStartsWith_iff iwdDash p).mp hp
      simpa [iwdDash] using this
    have hdrop : '_' ∉ p.drop 4 := fun hm => h (List.drop_subset 4 p hm)
    set R := replaceChar '-' '_' (p.drop 4) with hR
    have hto : to_object_name p = (iwdUnder ++ R) ++ glossarySuffix := by
      simp [to_object_name, hp, List.append_assoc]
    rw [hto]
    unfold from_object_name
    rw [strEndsWith_append]
    simp only [if_true]
    have hlen : (iwdUnder ++ R ++ glossarySuffix).length - glossarySuffix.length
        = (iwdUnder ++ R).length := by
      simp only [List.length_append]
      omega
    rw [hlen, List.take_left]
    have hpre : strStartsWith iwdUnder (iwdUnder ++ R) = true := by
      rw [strStartsWith_iff]
      exact List.take_left iwdUnder R
    rw [hpre]
    simp only [if_true]
    have h4 : (4 : Nat) = iwdUnder.length := by decide
    rw [h4, List.drop_left, hR, replaceChar_replaceChar _ hdrop,
      ← htake, List.take_append_drop]
  · -- plain variant
    have hdash : p.take 4 ≠ iwdDash := by
      intro hc
      exact hp ((strStartsWith_iff iwdDash p).mpr (by simpa [iwdDash] using hc))
    have hto : to_object_name p = replaceChar '-' '_' p ++ glossarySuffix := by
      simp [to_object_name, hp]
    rw [hto]
    unfold from_object_name
    rw [strEndsWith_append]
    simp only [if_true]
    have hlen : (replaceChar '-' '_' p ++ glossarySuffix).length - glossarySuffix.length
        = (replaceChar '-' '_' p).length := by
      simp only [List.length_append]
      omega
    rw [hlen, List.take_left]
    have hpre : strStartsWith iwdUnder (replaceChar '-' '_' p) = false := by
      by_contra hcon
      rw [Bool.not_eq_false, strStartsWith_iff] at hcon
      have hlen4 : iwdUnder.length = 4 := by decide
      rw [hlen4] at hcon
      have hmap : replaceChar '-' '_' (p.take 4) = iwdUnder := by
        rw [← hcon]
        simp [replaceChar, List.map_take]
      have hq : '_' ∉ p.take 4 := fun hm => h (List.take_subset 4 p hm)
      exact hdash (eq_iwdDash_of_map _ hq hmap)
    rw [hpre]
    simp only [Bool.false_eq_true, if_false]
    rw [replaceChar_replaceChar _ h]


/-! ## Claim theorems -/

/-- C1: for every language-pair string `p` (including the `iwd-` prefixed
variants), `from_object_name (to_object_name p) = p`; in particular
`to_object_name "en-es" = "en_es_glossary.csv"` and
`to_object_name "iwd-en-es" = "iwd_en_es_glossary.csv"`. -/
theorem claim1_object_name_roundtrip :
    (∀ p, isLanguagePairString p → from_object_name (to_object_name p) = some p)
    ∧ to_object_name "en-es".toList = "en_es_glossary.csv".toList
    ∧ to_object_name "iwd-en-es".toList = "iwd_en_es_glossary.csv".toList :=
  ⟨fun p h => roundtrip_of_no_underscore p (no_underscore_of_pair p h),
   by decide, by decide⟩

/-- Witness for C1: the round trip evaluated on the concrete pair
`"iwd-en-es"`. -/
theorem claim1_object_name_roundtrip_witness :
    isLanguagePairString "iwd-en-es".toList
    ∧ from_object_name (to_object_name "iwd-en-es".toList) = some "iwd-en-es".toList := by
  have hlp : isLanguagePairString "iwd-en-es".toList :=
    ⟨"en".toList, "es".toList, ⟨by decide, by decide⟩, ⟨by decide, by decide⟩,
      Or.inr (by decide)⟩
  exact ⟨hlp, claim1_object_name_roundtrip.1 _ hlp⟩

/-- C4: `update_glossary_entry` and `delete_glossary_entry` return `True`
exactly when the response status is 200, and `False` for every other status
and for a transport exception. -/
theorem claim4_update_delete_success_boolean :
    ∀ (st : Nat) (b : Json),
      (update_glossary_entry (.response st b) = true ↔ st = 200)
      ∧ (delete_glossary_entry (.response st b) = true ↔ st = 200)
      ∧ update_glossary_entry .exn = false
      ∧ delete_glossary_entry .exn = false := by
  intro st b
  refine ⟨?_, ?_, rfl, rfl⟩ <;>
    by_cases h : st = 200 <;>
    simp [update_glossary_entry, update_try, delete_glossary_entry, delete_try, h]

/-- C6: every failure inside the five operations, including transport
errors and token-refresh failures (`HttpOutcome.exn`) and malformed
response bodies (the `none` results of the `*_try` bodies), is converted
into the operation's failure value; no exception propagates (each outer
operation is a total function of the outcome). -/
theorem claim6_no_exception_propagates :
    ∀ o : HttpOutcome,
      (list_try o = none → list_glossary_entries o = .arr [])
      ∧ (get_try o = none → get_glossary_entry o = none)
      ∧ (create_try o = none → create_glossary_entry o = none)
      ∧ (update_try o = none → update_glossary_entry o = false)
      ∧ (delete_try o = none → delete_glossary_entry o = false)
      ∧ list_glossary_entries .exn = .arr []
      ∧ get_glossary_entry .exn = none
      ∧ create_glossary_entry .exn = none
      ∧ update_glossary_entry .exn = false
      ∧ delete_glossary_entry .exn = false := by
  intro o
  refine ⟨?_, ?_, ?_, ?_, ?_, rfl, rfl, rfl, rfl, rfl⟩ <;> intro h <;>
    simp [list_glossary_entries, get_glossary_entry, create_glossary_entry,
      update_glossary_entry, delete_glossary_entry, h]

/-- Witness for C6: the conversion evaluated at a transport exception. -/
theorem claim6_no_exception_propagates_witness :
    list_try .exn = none ∧ list_glossary_entries .exn = .arr []
    ∧ get_try .exn = none ∧ get_glossary_entry .exn = none
    ∧ create_try .exn = none ∧ create_glossary_entry .exn = none
    ∧ update_try .exn = none ∧ update_glossary_entry .exn = false
    ∧ delete_try .exn = none ∧ delete_glossary_entry .exn = false :=
  ⟨rfl, (claim6_no_exception_propagates .exn).1 rfl,
   rfl, (claim6_no_exception_propagates .exn).2.1 rfl,
   rfl, (claim6_no_exception_propagates .exn).2.2.1 rfl,
   rfl, (claim6_no_exception_propagates .exn).2.2.2.1 rfl,
   rfl, (claim6_no_exception_propagates .exn).2.2.2.2.1 rfl⟩

/-- Helper: folding append-of-singletons equals appending the map. -/
lemma foldl_append_singleton (f : Str → Str) :
    ∀ (l acc : List Str),
      l.foldl (fun acc pair => acc ++ [f pair]) acc = acc ++ l.map f := by
  intro l
  induction l with
  | nil => intro acc; simp
  | cons x xs ih =>
    intro acc
    simp [List.foldl_cons, ih]

/-- C9: `get_all_language_pairs` returns a list of length `2n`: the `n`
configured pairs in order, followed by their `iwd-` variants in the same
order. -/
theorem claim9_all_language_pairs :
    ∀ supported : List Str,
      get_all_language_pairs supported
        = supported ++ supported.map (fun pair => iwdDash ++ pair)
      ∧ (get_all_language_pairs supported).length = 2 * supported.length := by
  intro supported
  have h : get_all_language_pairs supported
      = supported ++ supported.map (fun pair => iwdDash ++ pair) := by
    unfold get_all_language_pairs
    rw [foldl_append_singleton]
    simp
  refine ⟨h, ?_⟩
  rw [h]
  simp [List.length_append, List.length_map]
  omega

/-- Counterexample to C2 as stated: a 200 response whose body lacks a
`"name"` field makes `create_glossary_entry` return `None` even though the
status is 200, so "non-None exactly when the status is 200" fails. -/
theorem claim2_counterexample :
    ¬ (create_glossary_entry (.response 200 (.obj [])) ≠ none ↔ (200 : Nat) = 200) := by
  decide

/-- C2 (amended): `get_glossary_entry` returns the parsed body exactly on
status 200; `create_glossary_entry` returns a value exactly on status 200
with a body whose `"name"` field is a string, and then returns that
string's final `/`-separated segment; on 404 and any other non-200 both
return `None`. -/
theorem claim2_entry_read_create_results :
    ∀ (st : Nat) (b : Json),
      (get_glossary_entry (.response st b) ≠ none ↔ st = 200)
      ∧ get_glossary_entry (.response 200 b) = some b
      ∧ (create_glossary_entry (.response st b) ≠ none
          ↔ (st = 200 ∧ extractName b ≠ none))
      ∧ (∀ s, extractName b = some s →
          create_glossary_entry (.response 200 b) = some (lastSegment s)) := by
  intro st b
  refine ⟨?_, ?_, ?_, ?_⟩
  · by_cases h : st = 200 <;> simp [get_glossary_entry, get_try, h]
  · simp [get_glossary_entry, get_try]
  · by_cases h : st = 200
    · subst h
      cases hx : extractName b <;>
        simp [create_glossary_entry, create_try, hx]
    · simp [create_glossary_entry, create_try, h]
  · intro s hs
    simp [create_glossary_entry, create_try, hs]

/-- Witness for C2 (amended): a concrete 200 response with a resource name. -/
theorem claim2_entry_read_create_results_witness :
    extractName (.obj [("name".toList, Json.str "ab/cd".toList)]) = some "ab/cd".toList
    ∧ create_glossary_entry
        (.response 200 (.obj [("name".toList, Json.str "ab/cd".toList)]))
      = some (lastSegment "ab/cd".toList) :=
  ⟨rfl, (claim2_entry_read_create_results 200 _).2.2.2 _ rfl⟩

/-- C3: `list_glossary_entries` issues a single GET request carrying the
`pageSize` parameter; it returns the `"glossaryEntries"` collection of the
body on status 200, and the empty list on any non-200 status and on a
transport exception, never raising (it is a total function). -/
theorem claim3_list_entries :
    ∀ (m : GlossaryEntryManager) (gid : Str) (ps : Int) (st : Nat) (b : Json)
      (fields : List (Str × Json)) (xs : List Json),
      list_requests_issued m gid ps = [list_request m gid ps]
      ∧ (list_request m gid ps).method = .GET
      ∧ (list_request m gid ps).params = [("pageSize".toList, ps)]
      ∧ (st ≠ 200 → list_glossary_entries (.response st b) = .arr [])
      ∧ (lookupField fields "glossaryEntries".toList = some (.arr xs) →
          list_glossary_entries (.response 200 (.obj fields)) = .arr xs)
      ∧ list_glossary_entries .exn = .arr [] := by
  intro m gid ps st b fields xs
  refine ⟨rfl, rfl, rfl, ?_, ?_, rfl⟩
  · intro h
    simp [list_glossary_entries, list_try, h]
  · intro h
    have hlt : list_try (.response 200 (.obj fields))
        = match pyLen ((lookupField fields "glossaryEntries".toList).getD (.arr [])) with
          | some _ => some ((lookupField fields "glossaryEntries".toList).getD (.arr []))
          | none => none := rfl
    show (list_try (.response 200 (.obj fields))).getD (.arr []) = .arr xs
    rw [hlt, h]
    rfl

/-- Witness for C3: a 404 response and a 200 response with one entry. -/
theorem claim3_list_entries_witness :
    ((404 : Nat) ≠ 200 ∧ list_glossary_entries (.response 404 Json.null) = .arr [])
    ∧ (lookupField [("glossaryEntries".toList, Json.arr [Json.null])]
          "glossaryEntries".toList = some (.arr [Json.null])
       ∧ list_glossary_entries
            (.response 200 (.obj [("glossaryEntries".toList, Json.arr [Json.null])]))
          = .arr [Json.null]) := by
  refine ⟨⟨by decide, ?_⟩, ⟨rfl, ?_⟩⟩
  · exact (claim3_list_entries (mkManager [] []) [] 0 404 Json.null [] []).2.2.2.1
      (by decide)
  · exact (claim3_list_entries (mkManager [] []) [] 0 200 Json.null
      [("glossaryEntries".toList, Json.arr [Json.null])] [Json.null]).2.2.2.2.1
      rfl

/-- Counterexample to C5 as stated: terms are passed through verbatim, so a
call whose term object uses the snake_case key `language_code` (as the
repository's own CLI examples and tests do) puts that key on the wire — the
term does not carry the camelCase key `languageCode`. -/
theorem claim5_counterexample :
    (create_request (mkManager "p".toList "l".toList) "g".toList
        [Json.obj [("language_code".toList, Json.str "en".toList),
                   ("text".toList, Json.str "hello".toList)]] []).body
      = some (Json.obj [("termsSet".toList,
          Json.obj [("terms".toList, Json.arr
            [Json.obj [("language_code".toList, Json.str "en".toList),
                       ("text".toList, Json.str "hello".toList)]])])])
    ∧ lookupField [("language_code".toList, Json.str "en".toList),
                   ("text".toList, Json.str "hello".toList)]
        "languageCode".toList = none := by
  constructor
  · rfl
  · rfl

/-- C5 (amended): the JSON body sent by create and update is exactly
`{"termsSet": {"terms": terms}}` with the caller's term objects passed
through verbatim, plus a top-level `"description"` key present exactly when
the description argument is non-empty. -/
theorem claim5_request_body :
    ∀ (m : GlossaryEntryManager) (gid eid : Str) (terms : List Json)
      (description : Str),
      (create_request m gid terms description).body
        = some (entry_request_body terms description)
      ∧ (update_request m gid eid terms description).body
        = some (entry_request_body terms description)
      ∧ jsonGetKey (entry_request_body terms description) "termsSet".toList
        = some (.obj [("terms".toList, .arr terms)])
      ∧ jsonGetKey (entry_request_body terms description) "description".toList
        = (if description = [] then none else some (.str description))
      ∧ jsonKeys (entry_request_body terms description)
        = "termsSet".toList ::
            (if description = [] then [] else ["description".toList]) := by
  intro m gid eid terms description
  refine ⟨rfl, rfl, ?_, ?_, ?_⟩ <;>
    by_cases hd : description = [] <;>
    simp [entry_request_body, jsonGetKey, jsonKeys, lookupField, hd,
      (show ("termsSet".toList : Str) ≠ "description".toList by decide)]

/-- Counterexample to C7 as stated: the parent fixed at construction is
`projects/{p}/locations/{loc}` — it contains no `glossaries/{g}` segment,
and the same constructed manager addresses different glossaries on
different calls. -/
theorem claim7_counterexample :
    (mkManager "pr".toList "lo".toList).parent = "projects/pr/locations/lo".toList
    ∧ ¬ "glossaries".toList <:+: (mkManager "pr".toList "lo".toList).parent
    ∧ (get_request (mkManager "pr".toList "lo".toList) "g1".toList "e1".toList).url
        ≠ (get_request (mkManager "pr".toList "lo".toList) "g2".toList "e1".toList).url := by
  refine ⟨by decide, by decide, by decide⟩

/-- C7 (amended): every request addresses
`{parent}/glossaries/{glossaryId}/glossaryEntries` (with `/{entryId}`
appended for get/update/delete) under the base URL
`https://translation.googleapis.com/v3`, where the parent
`projects/{p}/locations/{loc}` is fixed at construction time and the
glossary id is supplied per call. -/
theorem claim7_request_urls :
    ∀ (p loc gid eid : Str) (ps : Int) (terms : List Json) (description : Str),
      (mkManager p loc).base_url = "https://translation.googleapis.com/v3".toList
      ∧ (mkManager p loc).parent
          = "projects/".toList ++ p ++ "/locations/".toList ++ loc
      ∧ (list_request (mkManager p loc) gid ps).url
          = (mkManager p loc).base_url ++ "/".toList ++ (mkManager p loc).parent
            ++ "/glossaries/".toList ++ gid ++ "/glossaryEntries".toList
      ∧ (create_request (mkManager p loc) gid terms description).url
          = collection_url (mkManager p loc) gid
      ∧ (get_request (mkManager p loc) gid eid).url
          = collection_url (mkManager p loc) gid ++ "/".toList ++ eid
      ∧ (update_request (mkManager p loc) gid eid terms description).url
          = collection_url (mkManager p loc) gid ++ "/".toList ++ eid
      ∧ (delete_request (mkManager p loc) gid eid).url
          = collection_url (mkManager p loc) gid ++ "/".toList ++ eid := by
  intro p loc gid eid ps terms description
  exact ⟨rfl, rfl, rfl, rfl, rfl, rfl, rfl⟩

/-- Counterexample to C8 as stated: a missing conditional flag goes through
`parser.error`, which exits with status 2 (argparse), not 1. -/
theorem claim8_counterexample :
    main_model ⟨CliAction.get, none, none⟩ true true (fun _ => none) = .exitCode 2
    ∧ MainResult.exitCode 2 ≠ MainResult.exitCode 1 := by
  exact ⟨rfl, by decide⟩

/-- C8 (amended): with action get/update/delete and `--entry-id` absent, or
action create/update and `--terms` absent, the process exits with code 2
(`parser.error`); with `--terms` present but not valid JSON for
create/update it exits with code 1 — in every case before issuing any API
call (the result is an exit, never `apiCall`). -/
theorem claim8_cli_validation :
    ∀ (args : CliArgs) (authExists initOk : Bool) (termsParse : Str → Option Json),
      ((args.action = .get ∨ args.action = .update ∨ args.action = .delete) →
        falsyOpt args.entry_id = true →
        main_model args authExists initOk termsParse = .exitCode 2)
      ∧ ((args.action = .create ∨ args.action = .update) →
        falsyOpt args.terms = true →
        main_model args authExists initOk termsParse = .exitCode 2)
      ∧ ((args.action = .create ∨ args.action = .update) →
        falsyOpt args.entry_id = false → falsyOpt args.terms = false →
        authExists = true → initOk = true →
        termsParse (args.terms.getD []) = none →
        main_model args authExists initOk termsParse = .exitCode 1) := by
  intro args authExists initOk termsParse
  refine ⟨?_, ?_, ?_⟩
  · intro ha hf
    unfold main_model
    rw [if_pos ⟨ha, hf⟩]
  · intro ha hf
    unfold main_model
    by_cases h1 : (args.action = .get ∨ args.action = .update ∨ args.action = .delete)
        ∧ falsyOpt args.entry_id = true
    · rw [if_pos h1]
    · rw [if_neg h1, if_pos ⟨ha, hf⟩]
  · intro ha hent hterms hauth hinit hparse
    subst hauth
    subst hinit
    unfold main_model
    have h1 : ¬ ((args.action = .get ∨ args.action = .update ∨ args.action = .delete)
        ∧ falsyOpt args.entry_id = true) := by
      rintro ⟨-, hf⟩
      rw [hent] at hf
      exact Bool.false_ne_true hf
    have h2 : ¬ ((args.action = .create ∨ args.action = .update)
        ∧ falsyOpt args.terms = true) := by
      rintro ⟨-, hf⟩
      rw [hterms] at hf
      exact Bool.false_ne_true hf
    rw [if_neg h1, if_neg h2, if_neg (by simp), if_neg (by simp)]
    rcases ha with ha | ha <;> rw [ha] <;> simp [hparse]

/-- Witness for C8: the three exit paths at concrete argument vectors. -/
theorem claim8_cli_validation_witness :
    main_model ⟨CliAction.update, none, some "x".toList⟩ true true (fun _ => none)
      = .exitCode 2
    ∧ main_model ⟨CliAction.create, some "e".toList, none⟩ true true (fun _ => none)
      = .exitCode 2
    ∧ main_model ⟨CliAction.create, some "e".toList, some "bad".toList⟩ true true
        (fun _ => none) = .exitCode 1 := by
  refine ⟨?_, ?_, ?_⟩
  · exact (claim8_cli_validation _ _ _ _).1 (Or.inr (Or.inl rfl)) rfl
  · exact (claim8_cli_validation _ _ _ _).2.1 (Or.inl rfl) rfl
  · exact (claim8_cli_validation _ _ _ _).2.2 (Or.inl rfl) (by decide) (by decide)
      rfl rfl rfl

/-- C10: `get_environment_config` raises (`.error`) exactly for environments
outside `dev`/`prod`; `validate_environment` returns `False` (no raise — it
is a total boolean function) for those; and for `dev`/`prod`,
`get_environment_config` returns a dict containing the keys
`credentials_file`, `project_id`, `bucket_name` and `credentials_path`. -/
theorem claim10_environment_config :
    ∀ (getenv : Str → Option Str) (cwd : Str) (pathExists : Str → Bool) (e : Str),
      (get_environment_config getenv cwd e = .error ()
        ↔ (e ≠ "dev".toList ∧ e ≠ "prod".toList))
      ∧ (e ≠ "dev".toList ∧ e ≠ "prod".toList →
          validate_environment getenv cwd pathExists e = false)
      ∧ ((e = "dev".toList ∨ e = "prod".toList) →
          ∃ config, get_environment_config getenv cwd e = .ok config
            ∧ (lookupStr config "credentials_file".toList).isSome = true
            ∧ (lookupStr config "project_id".toList).isSome = true
            ∧ (lookupStr config "bucket_name".toList).isSome = true
            ∧ (lookupStr config "credentials_path".toList).isSome = true) := by
  intro getenv cwd pathExists e
  by_cases hd : e = "dev".toList
  · subst hd
    have hge : get_environment_config getenv cwd "dev".toList
        = .ok (dev_environment getenv ++
            [("credentials_path".toList,
              joinPath cwd ((lookupStr (dev_environment getenv)
                "credentials_file".toList).getD []))]) := rfl
    refine ⟨?_, ?_, ?_⟩
    · rw [hge]
      constructor
      · intro h
        exact absurd h (by simp)
      · rintro ⟨h1, -⟩
        exact absurd rfl h1
    · rintro ⟨h1, -⟩
      exact absurd rfl h1
    · intro _
      exact ⟨_, hge, rfl, rfl, rfl, rfl⟩
  · by_cases hp : e = "prod".toList
    · subst hp
      have hge : get_environment_config getenv cwd "prod".toList
          = .ok (prod_environment getenv ++
              [("credentials_path".toList,
                joinPath cwd ((lookupStr (prod_environment getenv)
                  "credentials_file".toList).getD []))]) := rfl
      refine ⟨?_, ?_, ?_⟩
      · rw [hge]
        constructor
        · intro h
          exact absurd h (by simp)
        · rintro ⟨-, h2⟩
          exact absurd rfl h2
      · rintro ⟨-, h2⟩
        exact absurd rfl h2
      · intro _
        exact ⟨_, hge, rfl, rfl, rfl, rfl⟩
    · have hd2 : ¬ (['d', 'e', 'v'] : Str) = e := fun hh => hd hh.symm
      have hp2 : ¬ (['p', 'r', 'o', 'd'] : Str) = e := fun hh => hp hh.symm
      have hne : lookupEnv (ENVIRONMENTS getenv) e = none := by
        simp [ENVIRONMENTS, lookupEnv, hd2, hp2]
      have hge : get_environment_config getenv cwd e = .error () := by
        unfold get_environment_config
        rw [hne]
      have hv : validate_environment getenv cwd pathExists e = false := by
        unfold validate_environment
        rw [hne]
      refine ⟨?_, fun _ => hv, ?_⟩
      · rw [hge]
        constructor
        · intro _
          exact ⟨hd, hp⟩
        · intro _
          rfl
      · intro hor
        rcases hor with h | h
        · exact absurd h hd
        · exact absurd h hp

/-- Witness for C10: an unknown environment and the `dev` environment. -/
theorem claim10_environment_config_witness :
    validate_environment (fun _ => none) [] (fun _ => true) "xx".toList = false
    ∧ get_environment_config (fun _ => none) [] "dev".toList ≠ .error () := by
  constructor
  · exact (claim10_environment_config (fun _ => none) [] (fun _ => true)
      "xx".toList).2.1 ⟨by decide, by decide⟩
  · obtain ⟨cfg, hcfg, -, -, -, -⟩ :=
      (claim10_environment_config (fun _ => none) [] (fun _ => true)
        "dev".toList).2.2 (Or.inl rfl)
    rw [hcfg]
    intro h
    exact Except.noConfusion h
